import Mathlib

/-!
Shallow embedding of the slotted-page implementation found in
src/btreebase/slotted_pages/src/lib.rs.

Modelling conventions:
  - Bytes are Nat values; the 4096-byte page buffer is a function from the
    absolute byte offset to the byte stored there.
  - The u16 and u64 header fields are stored little-endian at the offsets the
    binary_layout macro assigns (magic 0..4, lower_offset 4..6,
    upper_offset 6..8, overflow_page 8..16, flags 16..18), and u16 arithmetic
    is modelled with wrapping (mod 2 ^ 16) semantics.
  - Every failure of the source is a Rust panic (the two explicit panic!
    calls and out-of-bounds slice indexing); panics are modelled as the
    error case of Except, with a distinct constructor recording which
    panic fired.
-/

deriving instance DecidableEq for Except

namespace SlottedPages

/-- The page size constant of the source: 4096 bytes. -/
def PAGE_SIZE : Nat := 4096

/-- HEADER_SIZE as the source computes it: binary_layout derives it as the
sum of the header field widths, magic (4) + lower_offset (2) +
upper_offset (2) + overflow_page (8, a u64) + flags (2). -/
def HEADER_SIZE : Nat := 4 + 2 + 2 + 8 + 2

/-- Size of the body region of a page, PAGE_SIZE - HEADER_SIZE. -/
def BODY_SIZE : Nat := PAGE_SIZE - HEADER_SIZE

/-- PageId wraps a NonZeroU64: a positive page number. -/
structure PageId where
  val : Nat
  pos : 0 < val

/-- MaybePageId wraps a u64 in which 0 encodes the absent page. -/
structure MaybePageId where
  val : Nat

/-- MaybePageId::from_page_id: None maps to 0, Some id to the id value. -/
def MaybePageId.from_page_id : Option PageId → MaybePageId
  | none => ⟨0⟩
  | some p => ⟨p.val⟩

/-- MaybePageId::to_page_id: 0 maps to none, a nonzero value v to
some (PageId v), via NonZeroU64::new. -/
def MaybePageId.to_page_id (m : MaybePageId) : Option PageId :=
  if h : m.val = 0 then none else some ⟨m.val, Nat.pos_of_ne_zero h⟩

/-- The reasons the source panics.  Every failure of the source is a Rust
panic (abrupt termination), not a typed result; the constructor records
which panic fired: panic with message "Overflow page", panic with message
"Not a pointer", or the implicit panic of out-of-bounds slice indexing. -/
inductive PagePanic where
  | overflowPage
  | notAPointer
  | sliceOutOfBounds
  deriving DecidableEq

/-- Overwrite the byte range starting at offset s with the given bytes;
this models copy_from_slice into the subslice of that range. -/
def setRange (f : Nat → Nat) (s : Nat) (bs : List Nat) : Nat → Nat :=
  fun j => if s ≤ j ∧ j < s + bs.length then bs.getD (j - s) 0 else f j

/-- The little-endian bytes of a u16 value (u16::to_le_bytes). -/
def leBytes2 (v : Nat) : List Nat := [v % 256, v / 256 % 256]

/-- The little-endian bytes of a u64 value. -/
def leBytes8 (v : Nat) : List Nat :=
  [v % 256, v / 256 % 256, v / 256 ^ 2 % 256, v / 256 ^ 3 % 256,
   v / 256 ^ 4 % 256, v / 256 ^ 5 % 256, v / 256 ^ 6 % 256, v / 256 ^ 7 % 256]

/-- Read a little-endian u16 at the given absolute byte offset
(u16::from_le_bytes of two u8 values). -/
def readU16at (f : Nat → Nat) (off : Nat) : Nat :=
  f off % 256 + 256 * (f (off + 1) % 256)

/-- Read a little-endian u64 at the given absolute byte offset. -/
def readU64at (f : Nat → Nat) (off : Nat) : Nat :=
  f off % 256 + 256 * (f (off + 1) % 256) + 256 ^ 2 * (f (off + 2) % 256) +
  256 ^ 3 * (f (off + 3) % 256) + 256 ^ 4 * (f (off + 4) % 256) +
  256 ^ 5 * (f (off + 5) % 256) + 256 ^ 6 * (f (off + 6) % 256) +
  256 ^ 7 * (f (off + 7) % 256)

/-- Write a little-endian u16 at the given absolute byte offset. -/
def writeU16at (f : Nat → Nat) (off v : Nat) : Nat → Nat :=
  setRange f off (leBytes2 v)

/-- Write a little-endian u64 at the given absolute byte offset. -/
def writeU64at (f : Nat → Nat) (off v : Nat) : Nat → Nat :=
  setRange f off (leBytes8 v)

/-- Wrapping u16 subtraction, modelling Rust subtraction on u16 values
(both arguments are below 2 ^ 16 at every use site). -/
def sub16 (a b : Nat) : Nat := (a + 65536 - b) % 65536

/-- Page: a PAGE_SIZE byte buffer; data gives the byte stored at each
absolute offset below PAGE_SIZE. -/
structure Page where
  data : Nat → Nat

/-- Header accessor: self.header_view().lower_offset().read(). -/
def Page.lower_offset (p : Page) : Nat := readU16at p.data 4

/-- Header accessor: self.header_view().upper_offset().read(). -/
def Page.upper_offset (p : Page) : Nat := readU16at p.data 6

/-- Header accessor: self.header_view().flags().read(). -/
def Page.flags (p : Page) : Nat := readU16at p.data 16

/-- Header accessor: self.header_view().overflow_page().read(). -/
def Page.overflow_page (p : Page) : MaybePageId := ⟨readU64at p.data 8⟩

/-- The four magic bytes at offsets 0..4. -/
def Page.magic (p : Page) : List Nat := [p.data 0, p.data 1, p.data 2, p.data 3]

/-- The body byte at body-relative offset j; the body starts at absolute
offset HEADER_SIZE. -/
def Page.body (p : Page) (j : Nat) : Nat := p.data (HEADER_SIZE + j)

/-- Header mutator: self.header_mut_view().lower_offset_mut().write(v). -/
def Page.set_lower_offset (p : Page) (v : Nat) : Page := ⟨writeU16at p.data 4 v⟩

/-- Header mutator: self.header_mut_view().upper_offset_mut().write(v). -/
def Page.set_upper_offset (p : Page) (v : Nat) : Page := ⟨writeU16at p.data 6 v⟩

/-- Page::empty: a zeroed buffer, then magic := "PAGE" (bytes 50 41 47 45),
lower_offset := 0, upper_offset := PAGE_SIZE - HEADER_SIZE,
overflow_page := MaybePageId::from_page_id(None) = 0, flags := 0. -/
def Page.empty : Page :=
  Page.mk
    (writeU16at
      (writeU64at
        (writeU16at
          (writeU16at
            (setRange (fun _ => 0) 0 [0x50, 0x41, 0x47, 0x45])
            4 0)
          6 (PAGE_SIZE - HEADER_SIZE))
        8 (MaybePageId.from_page_id none).val)
      16 0)

/-- Page::write_cell_data: body_mut()[idx..idx + data.len()] := data.
Rust slice indexing panics when the end of the range exceeds the body
length. -/
def Page.write_cell_data (p : Page) (from_offset : Nat) (data : List Nat) :
    Except PagePanic Page :=
  if from_offset + data.length ≤ BODY_SIZE then
    .ok ⟨setRange p.data (HEADER_SIZE + from_offset) data⟩
  else
    .error .sliceOutOfBounds

/-- Page::read_cell: the slice body()[idx..idx + len]. -/
def Page.read_cell (p : Page) (from_offset len : Nat) :
    Except PagePanic (List Nat) :=
  if from_offset + len ≤ BODY_SIZE then
    .ok ((List.range len).map fun k => p.data (HEADER_SIZE + from_offset + k))
  else
    .error .sliceOutOfBounds

/-- Page::write_pointer: one pointer is 4 bytes, 2 for the cell address and
2 for the cell length, both little-endian. -/
def Page.write_pointer (p : Page) (from_offset addr len : Nat) :
    Except PagePanic Page :=
  if from_offset + 4 ≤ BODY_SIZE then
    .ok ⟨writeU16at (writeU16at p.data (HEADER_SIZE + from_offset) addr)
          (HEADER_SIZE + from_offset + 2) len⟩
  else
    .error .sliceOutOfBounds

/-- Page::read_pointer: panics with "Not a pointer" when
from_offset > lower_offset (note: strictly greater, the offset equal to
lower_offset is not rejected), then reads the 4 pointer bytes. -/
def Page.read_pointer (p : Page) (from_offset : Nat) :
    Except PagePanic (Nat × Nat) :=
  if from_offset > p.lower_offset then
    .error .notAPointer
  else if from_offset + 4 ≤ BODY_SIZE then
    .ok (readU16at p.data (HEADER_SIZE + from_offset),
         readU16at p.data (HEADER_SIZE + from_offset + 2))
  else
    .error .sliceOutOfBounds

/-- The free-space quantity upper_offset - lower_offset exactly as
Page::add_cell computes it: a u16 subtraction (wrapping below zero). -/
def Page.freeSpace (p : Page) : Nat := sub16 p.upper_offset p.lower_offset

/-- Page::add_cell: panic with "Overflow page" when
data.len() > upper_offset - lower_offset; otherwise write the cell data at
addr = upper_offset - data.len() as u16, write the pointer entry at
lower_offset, then lower_offset += 4 and upper_offset := addr. -/
def Page.add_cell (p : Page) (data : List Nat) : Except PagePanic Page :=
  let lower_offset := p.lower_offset
  let upper_offset := p.upper_offset
  if data.length > sub16 upper_offset lower_offset then
    .error .overflowPage
  else
    let addr := sub16 upper_offset (data.length % 65536)
    match p.write_cell_data addr data with
    | .error e => .error e
    | .ok p1 =>
      match p1.write_pointer lower_offset addr (data.length % 65536) with
      | .error e => .error e
      | .ok p2 =>
        .ok ((p2.set_lower_offset ((lower_offset + 4) % 65536)).set_upper_offset addr)

/-- Page::read_nth_cell: reads the pointer at (nth * 4) as u16 (a usize to
u16 cast, hence mod 2 ^ 16) and then the cell slice it denotes. -/
def Page.read_nth_cell (p : Page) (nth : Nat) : Except PagePanic (List Nat) :=
  let at_off := nth * 4 % 65536
  match p.read_pointer at_off with
  | .error e => .error e
  | .ok (ptr, len) => p.read_cell ptr len

/-- Page::cells_count: lower_offset / 4. -/
def Page.cells_count (p : Page) : Nat := p.lower_offset / 4

/-- Sequential appends: fold add_cell over a list of cells, stopping at the
first failure. -/
def Page.add_cells (p : Page) (ds : List (List Nat)) : Except PagePanic Page :=
  match ds with
  | [] => .ok p
  | d :: rest =>
    match p.add_cell d with
    | .ok p1 => p1.add_cells rest
    | .error e => .error e

/-- Checks that each cell of the list, at the moment it is appended, leaves
room for its payload and its 4 pointer bytes inside the free gap. -/
def Page.fitsAll (p : Page) (ds : List (List Nat)) : Bool :=
  match ds with
  | [] => true
  | d :: rest =>
    if d.length + 4 ≤ p.freeSpace then
      match p.add_cell d with
      | .ok p1 => p1.fitsAll rest
      | .error _ => false
    else
      false

/-! Numeric values of the format constants. -/

theorem HEADER_SIZE_eq : HEADER_SIZE = 18 := rfl

theorem BODY_SIZE_eq : BODY_SIZE = 4078 := rfl

theorem PAGE_SIZE_eq : PAGE_SIZE = 4096 := rfl

/-! Basic lemmas about the byte-store primitives. -/

theorem setRange_out {f : Nat → Nat} {s : Nat} {bs : List Nat} {j : Nat}
    (h : j < s ∨ s + bs.length ≤ j) : setRange f s bs j = f j := by
  simp only [setRange]
  rw [if_neg (by omega)]

theorem setRange_in {f : Nat → Nat} {s : Nat} {bs : List Nat} {j : Nat}
    (h1 : s ≤ j) (h2 : j < s + bs.length) :
    setRange f s bs j = bs.getD (j - s) 0 := by
  simp only [setRange]
  rw [if_pos ⟨h1, h2⟩]

theorem writeU16at_out {f : Nat → Nat} {off v j : Nat}
    (h : j < off ∨ off + 2 ≤ j) : writeU16at f off v j = f j := by
  unfold writeU16at
  exact setRange_out (by simp only [leBytes2, List.length_cons, List.length_nil]; omega)

theorem writeU16at_byte0 (f : Nat → Nat) (off v : Nat) :
    writeU16at f off v off = v % 256 := by
  unfold writeU16at
  rw [setRange_in (Nat.le_refl _) (by simp [leBytes2])]
  simp [leBytes2]

theorem writeU16at_byte1 (f : Nat → Nat) (off v : Nat) :
    writeU16at f off v (off + 1) = v / 256 % 256 := by
  unfold writeU16at
  rw [setRange_in (by omega) (by simp [leBytes2])]
  simp [leBytes2]

theorem writeU64at_out {f : Nat → Nat} {off v j : Nat}
    (h : j < off ∨ off + 8 ≤ j) : writeU64at f off v j = f j := by
  unfold writeU64at
  exact setRange_out (by simp only [leBytes8, List.length_cons, List.length_nil]; omega)

theorem readU16at_lt (f : Nat → Nat) (o : Nat) : readU16at f o < 65536 := by
  unfold readU16at
  omega

theorem readU16at_congr {f g : Nat → Nat} {o : Nat}
    (h1 : f o = g o) (h2 : f (o + 1) = g (o + 1)) :
    readU16at f o = readU16at g o := by
  unfold readU16at
  rw [h1, h2]

theorem readU16at_writeU16at (f : Nat → Nat) (off v : Nat) :
    readU16at (writeU16at f off v) off = v % 65536 := by
  unfold readU16at
  rw [show off + 1 = off + 1 from rfl, writeU16at_byte0, writeU16at_byte1]
  omega

theorem readU16at_writeU16at_out (f : Nat → Nat) (off v off2 : Nat)
    (h : off2 + 2 ≤ off ∨ off + 2 ≤ off2) :
    readU16at (writeU16at f off v) off2 = readU16at f off2 := by
  unfold readU16at
  rw [writeU16at_out (by omega), writeU16at_out (by omega)]

theorem readU16at_setRange_out (f : Nat → Nat) (s : Nat) (bs : List Nat) (off : Nat)
    (h : off + 2 ≤ s ∨ s + bs.length ≤ off) :
    readU16at (setRange f s bs) off = readU16at f off := by
  unfold readU16at
  rw [setRange_out (by omega), setRange_out (by omega)]

theorem sub16_eq_of_le {a b : Nat} (h : b ≤ a) (ha : a < 65536) :
    sub16 a b = a - b := by
  unfold sub16
  omega

theorem lower_offset_lt (p : Page) : p.lower_offset < 65536 := readU16at_lt p.data 4

theorem upper_offset_lt (p : Page) : p.upper_offset < 65536 := readU16at_lt p.data 6

theorem freeSpace_eq_sub (p : Page) (h : p.lower_offset ≤ p.upper_offset) :
    p.freeSpace = p.upper_offset - p.lower_offset := by
  unfold Page.freeSpace
  exact sub16_eq_of_le h (upper_offset_lt p)

/-! Characterization of a non-panicking add_cell call. -/

/-- The byte store produced by a successful add_cell call: cell data written
at addr = upper_offset - len, the two pointer halves at lower_offset, then
the two header cursor updates. -/
def addCellResultData (p : Page) (d : List Nat) : Nat → Nat :=
  writeU16at
    (writeU16at
      (writeU16at
        (writeU16at
          (setRange p.data (HEADER_SIZE + (p.upper_offset - d.length)) d)
          (HEADER_SIZE + p.lower_offset) (p.upper_offset - d.length))
        (HEADER_SIZE + p.lower_offset + 2) d.length)
      4 (p.lower_offset + 4))
    6 (p.upper_offset - d.length)

theorem add_cell_eq (p : Page) (d : List Nat)
    (hlu : p.lower_offset ≤ p.upper_offset)
    (hub : p.upper_offset ≤ BODY_SIZE)
    (hfit : d.length ≤ p.upper_offset - p.lower_offset)
    (hlow4 : p.lower_offset + 4 ≤ BODY_SIZE) :
    p.add_cell d = .ok ⟨addCellResultData p d⟩ := by
  have hB := BODY_SIZE_eq
  have hU16 := upper_offset_lt p
  have hL16 := lower_offset_lt p
  have hsubfree : sub16 p.upper_offset p.lower_offset =
      p.upper_offset - p.lower_offset := sub16_eq_of_le hlu hU16
  have hmod : d.length % 65536 = d.length := Nat.mod_eq_of_lt (by omega)
  have haddr : sub16 p.upper_offset d.length = p.upper_offset - d.length :=
    sub16_eq_of_le (by omega) hU16
  have hmod4 : (p.lower_offset + 4) % 65536 = p.lower_offset + 4 :=
    Nat.mod_eq_of_lt (by omega)
  have hg : ¬ (d.length > p.upper_offset - p.lower_offset) := by omega
  have hw1 : p.upper_offset - d.length + d.length ≤ BODY_SIZE := by omega
  simp only [Page.add_cell, Page.write_cell_data, Page.write_pointer,
    Page.set_lower_offset, Page.set_upper_offset, hmod, hsubfree, haddr, hmod4,
    if_neg hg, if_pos hw1, if_pos hlow4]
  rfl

theorem addCellResultData_lower (p : Page) (d : List Nat)
    (h4 : p.lower_offset + 4 < 65536) :
    readU16at (addCellResultData p d) 4 = p.lower_offset + 4 := by
  unfold addCellResultData
  rw [readU16at_writeU16at_out _ 6 _ 4 (by omega), readU16at_writeU16at]
  omega

theorem addCellResultData_upper (p : Page) (d : List Nat) :
    readU16at (addCellResultData p d) 6 = p.upper_offset - d.length := by
  unfold addCellResultData
  rw [readU16at_writeU16at]
  have := upper_offset_lt p
  omega

theorem addCellResultData_header_frame (p : Page) (d : List Nat) {i : Nat}
    (h1 : i < 4 ∨ 8 ≤ i ∧ i < HEADER_SIZE) :
    addCellResultData p d i = p.data i := by
  have hH := HEADER_SIZE_eq
  unfold addCellResultData
  rw [writeU16at_out (by omega), writeU16at_out (by omega),
      writeU16at_out (by omega), writeU16at_out (by omega),
      setRange_out (by omega)]

theorem addCellResultData_body_frame (p : Page) (d : List Nat) {j : Nat}
    (hlu : p.lower_offset ≤ p.upper_offset)
    (hfit : d.length ≤ p.upper_offset - p.lower_offset)
    (hp : ¬ (p.lower_offset ≤ j ∧ j < p.lower_offset + 4))
    (hd : ¬ (p.upper_offset - d.length ≤ j ∧ j < p.upper_offset)) :
    addCellResultData p d (HEADER_SIZE + j) = p.data (HEADER_SIZE + j) := by
  have hH := HEADER_SIZE_eq
  unfold addCellResultData
  rw [writeU16at_out (by omega), writeU16at_out (by omega),
      writeU16at_out (by omega), writeU16at_out (by omega),
      setRange_out (by omega)]

theorem addCellResultData_ptrAddr (p : Page) (d : List Nat)
    (hn : d.length ≤ p.upper_offset) :
    readU16at (addCellResultData p d) (HEADER_SIZE + p.lower_offset) =
      p.upper_offset - d.length := by
  have hH := HEADER_SIZE_eq
  unfold addCellResultData
  rw [readU16at_writeU16at_out _ 6 _ _ (by omega),
      readU16at_writeU16at_out _ 4 _ _ (by omega),
      readU16at_writeU16at_out _ (HEADER_SIZE + p.lower_offset + 2) _ _ (by omega),
      readU16at_writeU16at]
  have := upper_offset_lt p
  omega

theorem addCellResultData_ptrLen (p : Page) (d : List Nat)
    (hn : d.length < 65536) :
    readU16at (addCellResultData p d) (HEADER_SIZE + p.lower_offset + 2) =
      d.length := by
  have hH := HEADER_SIZE_eq
  unfold addCellResultData
  rw [readU16at_writeU16at_out _ 6 _ _ (by omega),
      readU16at_writeU16at_out _ 4 _ _ (by omega),
      readU16at_writeU16at]
  omega

theorem addCellResultData_ptrByte0 (p : Page) (d : List Nat) :
    addCellResultData p d (HEADER_SIZE + p.lower_offset) =
      (p.upper_offset - d.length) % 256 := by
  have hH := HEADER_SIZE_eq
  unfold addCellResultData
  rw [writeU16at_out (by omega), writeU16at_out (by omega),
      writeU16at_out (by omega), writeU16at_byte0]

theorem addCellResultData_ptrByte1 (p : Page) (d : List Nat) :
    addCellResultData p d (HEADER_SIZE + p.lower_offset + 1) =
      (p.upper_offset - d.length) / 256 % 256 := by
  have hH := HEADER_SIZE_eq
  unfold addCellResultData
  rw [writeU16at_out (by omega), writeU16at_out (by omega),
      writeU16at_out (by omega),
      show HEADER_SIZE + p.lower_offset + 1 = HEADER_SIZE + p.lower_offset + 1 from rfl,
      writeU16at_byte1]

theorem addCellResultData_ptrByte2 (p : Page) (d : List Nat) :
    addCellResultData p d (HEADER_SIZE + p.lower_offset + 2) = d.length % 256 := by
  have hH := HEADER_SIZE_eq
  unfold addCellResultData
  rw [writeU16at_out (by omega), writeU16at_out (by omega), writeU16at_byte0]

theorem addCellResultData_ptrByte3 (p : Page) (d : List Nat) :
    addCellResultData p d (HEADER_SIZE + p.lower_offset + 3) =
      d.length / 256 % 256 := by
  have hH := HEADER_SIZE_eq
  unfold addCellResultData
  rw [writeU16at_out (by omega), writeU16at_out (by omega),
      show HEADER_SIZE + p.lower_offset + 3 = HEADER_SIZE + p.lower_offset + 2 + 1 by omega,
      writeU16at_byte1]

theorem addCellResultData_payload (p : Page) (d : List Nat) {k : Nat}
    (hk : k < d.length)
    (hno : ¬ (p.lower_offset ≤ p.upper_offset - d.length + k ∧
              p.upper_offset - d.length + k < p.lower_offset + 4)) :
    addCellResultData p d (HEADER_SIZE + (p.upper_offset - d.length + k)) =
      d.getD k 0 := by
  have hH := HEADER_SIZE_eq
  unfold addCellResultData
  rw [writeU16at_out (by omega), writeU16at_out (by omega),
      writeU16at_out (by omega), writeU16at_out (by omega),
      setRange_in (by omega) (by omega)]
  congr 1
  omega

/-- Full characterization of a successful add_cell call: when the header is
sane, the data fits below the free gap, and the 4 pointer bytes stay inside
the body, the call returns a page with advanced cursors, the new pointer
entry, the new payload bytes, and every byte outside the two written ranges
unchanged. -/
theorem add_cell_ok_general (p : Page) (d : List Nat)
    (hlu : p.lower_offset ≤ p.upper_offset)
    (hub : p.upper_offset ≤ BODY_SIZE)
    (hfit : d.length ≤ p.upper_offset - p.lower_offset)
    (hlow4 : p.lower_offset + 4 ≤ BODY_SIZE) :
    ∃ p' : Page, p.add_cell d = .ok p' ∧
      p'.lower_offset = p.lower_offset + 4 ∧
      p'.upper_offset = p.upper_offset - d.length ∧
      (∀ i, i < 4 → p'.data i = p.data i) ∧
      (∀ i, 8 ≤ i → i < HEADER_SIZE → p'.data i = p.data i) ∧
      (∀ j, ¬ (p.lower_offset ≤ j ∧ j < p.lower_offset + 4) →
        ¬ (p.upper_offset - d.length ≤ j ∧ j < p.upper_offset) →
        p'.body j = p.body j) ∧
      readU16at p'.data (HEADER_SIZE + p.lower_offset) =
        p.upper_offset - d.length ∧
      readU16at p'.data (HEADER_SIZE + p.lower_offset + 2) = d.length ∧
      (∀ k, k < d.length →
        ¬ (p.lower_offset ≤ p.upper_offset - d.length + k ∧
           p.upper_offset - d.length + k < p.lower_offset + 4) →
        p'.body (p.upper_offset - d.length + k) = d.getD k 0) ∧
      p'.body p.lower_offset = (p.upper_offset - d.length) % 256 ∧
      p'.body (p.lower_offset + 1) = (p.upper_offset - d.length) / 256 % 256 ∧
      p'.body (p.lower_offset + 2) = d.length % 256 ∧
      p'.body (p.lower_offset + 3) = d.length / 256 % 256 := by
  have hB := BODY_SIZE_eq
  refine ⟨⟨addCellResultData p d⟩, add_cell_eq p d hlu hub hfit hlow4,
    addCellResultData_lower p d (by omega),
    addCellResultData_upper p d,
    fun i hi => addCellResultData_header_frame p d (Or.inl hi),
    fun i h8 hH => addCellResultData_header_frame p d (Or.inr ⟨h8, hH⟩),
    fun j hp hd => addCellResultData_body_frame p d hlu hfit hp hd,
    addCellResultData_ptrAddr p d (by omega),
    addCellResultData_ptrLen p d (by omega),
    fun k hk hno => addCellResultData_payload p d hk hno,
    addCellResultData_ptrByte0 p d,
    addCellResultData_ptrByte1 p d,
    addCellResultData_ptrByte2 p d,
    addCellResultData_ptrByte3 p d⟩

/-! The inductive invariant relating a page to the cells appended so far. -/

/-- The address half of pointer-table entry i. -/
def ptrAddr (p : Page) (i : Nat) : Nat := readU16at p.data (HEADER_SIZE + 4 * i)

/-- The length half of pointer-table entry i. -/
def ptrLen (p : Page) (i : Nat) : Nat :=
  readU16at p.data (HEADER_SIZE + (4 * i + 2))

/-- Invariant: the page holds exactly the cells cs, in order; the header
cursors are consistent, every pointer entry decodes to the address and
length of its cell, and the payload bytes are intact. -/
def cellsIn (p : Page) (cs : List (List Nat)) : Prop :=
  p.lower_offset = 4 * cs.length ∧
  p.lower_offset ≤ p.upper_offset ∧
  p.upper_offset ≤ BODY_SIZE ∧
  ∀ i, i < cs.length →
    p.upper_offset ≤ ptrAddr p i ∧
    ptrAddr p i + (cs.getD i []).length ≤ BODY_SIZE ∧
    ptrLen p i = (cs.getD i []).length ∧
    ∀ k, k < (cs.getD i []).length →
      p.body (ptrAddr p i + k) = (cs.getD i []).getD k 0

theorem readU16at_congr_body {p q : Page} {j : Nat}
    (h1 : p.body j = q.body j) (h2 : p.body (j + 1) = q.body (j + 1)) :
    readU16at p.data (HEADER_SIZE + j) = readU16at q.data (HEADER_SIZE + j) := by
  apply readU16at_congr
  · exact h1
  · rw [show HEADER_SIZE + j + 1 = HEADER_SIZE + (j + 1) by omega]
    exact h2

/-- Appending a cell that leaves room for payload plus pointer preserves the
invariant, extending the cell list. -/
theorem cellsIn_add_cell {p : Page} {cs : List (List Nat)} {d : List Nat}
    (hinv : cellsIn p cs)
    (hfit : d.length + 4 ≤ p.upper_offset - p.lower_offset) :
    ∃ p', p.add_cell d = .ok p' ∧ cellsIn p' (cs ++ [d]) := by
  obtain ⟨hL, hlu, hub, hcells⟩ := hinv
  have hB := BODY_SIZE_eq
  obtain ⟨p', heq, hl', hu', hmagic, hhdr, hframe, hpa, hpl, hpay, _, _, _, _⟩ :=
    add_cell_ok_general p d hlu hub (by omega) (by omega)
  refine ⟨p', heq, ?_, by omega, by omega, ?_⟩
  · simp only [List.length_append, List.length_cons, List.length_nil]
    omega
  · intro i hi
    simp only [List.length_append, List.length_cons, List.length_nil] at hi
    rcases Nat.lt_or_ge i cs.length with hilt | hige
    · -- an entry present before the append: everything is unchanged
      obtain ⟨ha_i, hab_i, hlen_i, hbytes_i⟩ := hcells i hilt
      have hgetD : (cs ++ [d]).getD i [] = cs.getD i [] :=
        List.getD_append cs [d] [] i hilt
      have hidx : 4 * i + 4 ≤ p.lower_offset := by omega
      have haeq : ptrAddr p' i = ptrAddr p i := by
        unfold ptrAddr
        exact readU16at_congr_body
          (hframe (4 * i) (by omega) (by omega))
          (hframe (4 * i + 1) (by omega) (by omega))
      have hleq : ptrLen p' i = ptrLen p i := by
        unfold ptrLen
        exact readU16at_congr_body
          (hframe (4 * i + 2) (by omega) (by omega))
          (hframe (4 * i + 2 + 1) (by omega) (by omega))
      rw [hgetD, haeq, hleq]
      refine ⟨by omega, hab_i, hlen_i, ?_⟩
      intro k hk
      rw [hframe (ptrAddr p i + k) (by omega) (by omega)]
      exact hbytes_i k hk
    · -- the new entry
      have hieq : i = cs.length := by omega
      subst hieq
      have hgetD : (cs ++ [d]).getD cs.length [] = d := by
        rw [List.getD_append_right cs [d] [] cs.length (Nat.le_refl _)]
        simp
      have haeq : ptrAddr p' cs.length = p.upper_offset - d.length := by
        unfold ptrAddr
        rw [show HEADER_SIZE + 4 * cs.length = HEADER_SIZE + p.lower_offset by omega]
        exact hpa
      have hleq : ptrLen p' cs.length = d.length := by
        unfold ptrLen
        rw [show HEADER_SIZE + (4 * cs.length + 2) =
              HEADER_SIZE + p.lower_offset + 2 by omega]
        exact hpl
      rw [hgetD, haeq, hleq]
      refine ⟨by omega, by omega, rfl, ?_⟩
      intro k hk
      exact hpay k hk (by omega)

/-- The empty page satisfies the invariant with no cells. -/
theorem cellsIn_empty : cellsIn Page.empty [] := by
  refine ⟨by decide, by decide, by decide, ?_⟩
  intro i hi
  exact absurd hi (Nat.not_lt_zero i)

/-- Folding add_cell over a list of cells that all fit preserves and extends
the invariant. -/
theorem add_cells_cellsIn (ds : List (List Nat)) :
    ∀ (p : Page) (cs : List (List Nat)), cellsIn p cs →
      p.fitsAll ds = true →
      ∃ p', p.add_cells ds = .ok p' ∧ cellsIn p' (cs ++ ds) := by
  induction ds with
  | nil =>
    intro p cs hinv _
    exact ⟨p, rfl, by simpa using hinv⟩
  | cons d rest ih =>
    intro p cs hinv hfits
    simp only [Page.fitsAll] at hfits
    by_cases hfit : d.length + 4 ≤ p.freeSpace
    · rw [if_pos hfit] at hfits
      have hfit' : d.length + 4 ≤ p.upper_offset - p.lower_offset := by
        rwa [freeSpace_eq_sub p hinv.2.1] at hfit
      obtain ⟨p1, heq1, hinv1⟩ := cellsIn_add_cell hinv hfit'
      rw [heq1] at hfits
      have hfits1 : p1.fitsAll rest = true := hfits
      obtain ⟨p', heq', hinv'⟩ := ih p1 (cs ++ [d]) hinv1 hfits1
      refine ⟨p', ?_, by simpa using hinv'⟩
      simp only [Page.add_cells, heq1]
      exact heq'
    · rw [if_neg hfit] at hfits
      exact absurd hfits (by simp)

/-- Under the invariant, reading the nth cell returns exactly the nth
appended byte string. -/
theorem read_nth_cell_of_cellsIn {p : Page} {cs : List (List Nat)}
    (hinv : cellsIn p cs) {i : Nat} (hi : i < cs.length) :
    p.read_nth_cell i = .ok (cs.getD i []) := by
  obtain ⟨hL, hlu, hub, hcells⟩ := hinv
  obtain ⟨ha, hab, hlen, hbytes⟩ := hcells i hi
  have hB := BODY_SIZE_eq
  have hmod : i * 4 % 65536 = i * 4 := Nat.mod_eq_of_lt (by omega)
  have e1 : readU16at p.data (HEADER_SIZE + i * 4) = ptrAddr p i := by
    unfold ptrAddr
    congr 1
    omega
  have e2 : readU16at p.data (HEADER_SIZE + i * 4 + 2) = ptrLen p i := by
    unfold ptrLen
    congr 1
    omega
  have hg : ¬ (i * 4 > p.lower_offset) := by omega
  have hb1 : i * 4 + 4 ≤ BODY_SIZE := by omega
  simp only [Page.read_nth_cell, Page.read_pointer, Page.read_cell, hmod,
    if_neg hg, if_pos hb1, e1, e2]
  rw [if_pos (by omega)]
  congr 1
  apply List.ext_getElem
  · simp [hlen]
  · intro k h1 h2
    simp only [List.getElem_map, List.getElem_range]
    have hk : k < (cs.getD i []).length := by
      simp only [List.length_map, List.length_range] at h1
      omega
    rw [show HEADER_SIZE + ptrAddr p i + k = HEADER_SIZE + (ptrAddr p i + k) by omega]
    exact (hbytes k hk).trans (List.getD_eq_getElem _ _ hk)

/-- Congruence for u64 reads from pointwise byte equality. -/
theorem readU64at_congr {f g : Nat → Nat} {o : Nat}
    (h0 : f o = g o) (h1 : f (o + 1) = g (o + 1)) (h2 : f (o + 2) = g (o + 2))
    (h3 : f (o + 3) = g (o + 3)) (h4 : f (o + 4) = g (o + 4))
    (h5 : f (o + 5) = g (o + 5)) (h6 : f (o + 6) = g (o + 6))
    (h7 : f (o + 7) = g (o + 7)) :
    readU64at f o = readU64at g o := by
  unfold readU64at
  rw [h0, h1, h2, h3, h4, h5, h6, h7]

/-! Claim theorems. -/

/-- Claim C9 (confirmed): the PageId/MaybePageId conversions form a round
trip: for every Option PageId value p, converting to MaybePageId
(None to 0, Some id to id) and back (0 to None, nonzero v to
Some (PageId v)) yields p again. -/
theorem c9_page_id_roundtrip (p : Option PageId) :
    (MaybePageId.from_page_id p).to_page_id = p := by
  cases p with
  | none => rfl
  | some q =>
    have hne : q.val ≠ 0 := Nat.pos_iff_ne_zero.mp q.pos
    simp only [MaybePageId.from_page_id, MaybePageId.to_page_id, dif_neg hne]

/-- Claim C8 (confirmed): Page::empty has magic "PAGE" (bytes 50 41 47 45)
at offset 0, lower_offset 0, upper_offset PAGE_SIZE - HEADER_SIZE,
overflow_page 0 (decoding to none), flags 0, and every remaining buffer
byte (the whole body) zero. -/
theorem c8_empty_state :
    Page.empty.magic = [0x50, 0x41, 0x47, 0x45] ∧
    Page.empty.lower_offset = 0 ∧
    Page.empty.upper_offset = PAGE_SIZE - HEADER_SIZE ∧
    (Page.empty.overflow_page).val = 0 ∧
    (Page.empty.overflow_page).to_page_id = none ∧
    Page.empty.flags = 0 ∧
    ∀ i, HEADER_SIZE ≤ i → i < PAGE_SIZE → Page.empty.data i = 0 := by
  refine ⟨by decide, by decide, by decide, by decide, rfl, by decide, ?_⟩
  intro i hlow hhigh
  have hH := HEADER_SIZE_eq
  simp only [Page.empty]
  rw [writeU16at_out (by omega), writeU64at_out (by omega),
      writeU16at_out (by omega), writeU16at_out (by omega),
      setRange_out (by simp only [List.length_cons, List.length_nil]; omega)]

/-- Claim C7 counterexample: in the source, HEADER_SIZE is exactly the
literal sum of the header field widths (4 + 2 + 2 + 8 + 2 = 18), so there
are HEADER_SIZE - 18 = 0 bytes of reserved padding; it is not a reserved
capacity independent of that sum. -/
theorem c7_header_size_counterexample :
    HEADER_SIZE = 4 + 2 + 2 + 8 + 2 ∧ HEADER_SIZE - 18 = 0 := by
  decide

/-- Claim C7 (amended): HEADER_SIZE is computed as the literal sum of the
header field widths and equals 18; the body begins directly at offset
HEADER_SIZE with no reserved padding between the flags field and the body,
and the body spans the remaining PAGE_SIZE - HEADER_SIZE bytes. -/
theorem c7_header_size_amended :
    HEADER_SIZE = 18 ∧ HEADER_SIZE = 4 + 2 + 2 + 8 + 2 ∧
    HEADER_SIZE - 18 = 0 ∧ BODY_SIZE = PAGE_SIZE - HEADER_SIZE := by
  decide

/-- Claim C2 (code bug evidence): the empty page holds k = 0 cells, yet
read_nth_cell 0 does not fail with the out-of-range (not-a-pointer)
condition: the guard in read_pointer rejects only offsets strictly greater
than lower_offset, so the call reads the zeroed bytes at body offset 0 as
the pointer (0, 0) and returns an empty byte slice. -/
theorem c2_read_at_cells_count_returns_slice :
    Page.empty.cells_count = 0 ∧ Page.empty.read_nth_cell 0 = .ok [] := by
  exact ⟨by decide, by decide⟩

/-- The overflow check fires before any write: when the data is longer than
the u16 free-space quantity, add_cell is the panic "Overflow page". -/
theorem add_cell_overflow (p : Page) (d : List Nat)
    (h : d.length > sub16 p.upper_offset p.lower_offset) :
    p.add_cell d = .error .overflowPage := by
  simp only [Page.add_cell]
  rw [if_pos h]

/-- Claim C4 counterexample: appending 4079 bytes to the empty page (one
byte more than the 4078 bytes of free space) fails, but the failure is the
Rust panic with message "Overflow page" - an abrupt termination - not a
recoverable explicit failure result. -/
theorem c4_overflow_counterexample :
    (List.replicate 4079 1).length = Page.empty.freeSpace + 1 ∧
    Page.empty.add_cell (List.replicate 4079 1) = .error .overflowPage := by
  constructor
  · simp only [List.length_replicate]
    decide
  · exact add_cell_overflow Page.empty (List.replicate 4079 1)
      (by simp only [List.length_replicate]; decide)

/-- Claim C4 (amended): for every page, calling add_cell with data strictly
longer than the free-space quantity upper_offset - lower_offset fails
before any byte of the page is written, by the panic with message
"Overflow page"; in the source this is an abrupt termination (panic!), not
the recoverable failure result the spec prescribes. -/
theorem c4_overflow_amended (p : Page) (d : List Nat)
    (h : d.length > p.freeSpace) :
    p.add_cell d = .error .overflowPage := by
  simp only [Page.freeSpace] at h
  exact add_cell_overflow p d h

/-- Witness for c4_overflow_amended: the empty page with 4079 bytes. -/
theorem c4_overflow_amended_witness :
    (List.replicate 4079 2).length > Page.empty.freeSpace ∧
    Page.empty.add_cell (List.replicate 4079 2) = .error .overflowPage := by
  have h : (List.replicate 4079 2).length > Page.empty.freeSpace := by
    simp only [List.length_replicate]
    decide
  exact ⟨h, c4_overflow_amended Page.empty (List.replicate 4079 2) h⟩

/-- Claim C3 counterexample: on the empty page (free space 4078), appending
exactly 4078 bytes succeeds, but afterwards the free-space quantity the code
computes is 65532, not 0: the append also consumed 4 pointer bytes, so
lower_offset (4) now exceeds upper_offset (0) and the u16 subtraction
underflows. -/
theorem c3_exact_fit_counterexample :
    (List.replicate 4078 5).length = Page.empty.freeSpace ∧
    (Page.empty.add_cell (List.replicate 4078 5)).map Page.freeSpace =
      .ok 65532 := by
  have hlen : (List.replicate 4078 5).length = 4078 := List.length_replicate 4078 5
  have e0 : Page.empty.lower_offset = 0 := by decide
  have e1 : Page.empty.upper_offset = 4078 := by decide
  constructor
  · rw [hlen]
    decide
  · obtain ⟨p', heq, hl', hu', _, _, _, _, _, _, _, _, _, _⟩ :=
      add_cell_ok_general Page.empty (List.replicate 4078 5)
        (by decide) (by decide) (by rw [hlen, e0, e1]) (by decide)
    rw [heq]
    simp only [Except.map]
    have hfs : p'.freeSpace = 65532 := by
      unfold Page.freeSpace sub16
      rw [hl', hu', hlen, e0, e1]
    rw [hfs]

/-- Claim C3 (amended): for every page with a consistent header
(lower_offset ≤ upper_offset ≤ body size, and the next pointer entry in
bounds), appending data whose length equals exactly the current free space
succeeds, but drives the header to upper_offset = old lower_offset and
lower_offset = old lower_offset + 4 (the lower cursor now exceeds the upper
cursor), so the free-space quantity the code computes becomes 65532 by u16
underflow, not 0. -/
theorem c3_exact_fit_amended (p : Page) (d : List Nat)
    (h1 : p.lower_offset ≤ p.upper_offset)
    (h2 : p.upper_offset ≤ PAGE_SIZE - HEADER_SIZE)
    (h3 : p.lower_offset + 4 ≤ PAGE_SIZE - HEADER_SIZE)
    (hlen : d.length = p.freeSpace) :
    ∃ p', p.add_cell d = .ok p' ∧
      p'.upper_offset = p.lower_offset ∧
      p'.lower_offset = p.lower_offset + 4 ∧
      p'.freeSpace = 65532 := by
  rw [freeSpace_eq_sub p h1] at hlen
  have hB := BODY_SIZE_eq
  have hP := PAGE_SIZE_eq
  have hH := HEADER_SIZE_eq
  obtain ⟨p', heq, hl', hu', _, _, _, _, _, _, _, _, _, _⟩ :=
    add_cell_ok_general p d h1 h2 (by omega) (by omega)
  refine ⟨p', heq, by omega, hl', ?_⟩
  unfold Page.freeSpace sub16
  rw [hl', hu']
  omega

/-- Witness for c3_exact_fit_amended: the empty page with 4078 bytes. -/
theorem c3_exact_fit_amended_witness :
    Page.empty.lower_offset ≤ Page.empty.upper_offset ∧
    Page.empty.upper_offset ≤ PAGE_SIZE - HEADER_SIZE ∧
    Page.empty.lower_offset + 4 ≤ PAGE_SIZE - HEADER_SIZE ∧
    (List.replicate 4078 9).length = Page.empty.freeSpace ∧
    (∃ p', Page.empty.add_cell (List.replicate 4078 9) = .ok p' ∧
      p'.upper_offset = Page.empty.lower_offset ∧
      p'.lower_offset = Page.empty.lower_offset + 4 ∧
      p'.freeSpace = 65532) := by
  have hlen : (List.replicate 4078 9).length = Page.empty.freeSpace := by
    rw [List.length_replicate]
    decide
  exact ⟨by decide, by decide, by decide, hlen,
    c3_exact_fit_amended Page.empty (List.replicate 4078 9)
      (by decide) (by decide) (by decide) hlen⟩

/-- Claim C5 counterexample: appending 4077 bytes to the empty page is a
successful add_cell call, yet afterwards lower_offset = 4 while
upper_offset = 1, violating the invariant
lower_offset ≤ upper_offset ≤ PAGE_SIZE - HEADER_SIZE. -/
theorem c5_invariants_counterexample :
    (List.replicate 4077 3).length ≤ Page.empty.freeSpace ∧
    (Page.empty.add_cell (List.replicate 4077 3)).map
      (fun q => (q.lower_offset, q.upper_offset)) = .ok (4, 1) ∧
    ¬ ((4 : Nat) ≤ 1) := by
  have hlen : (List.replicate 4077 3).length = 4077 := List.length_replicate 4077 3
  have e0 : Page.empty.lower_offset = 0 := by decide
  have e1 : Page.empty.upper_offset = 4078 := by decide
  refine ⟨by rw [hlen]; decide, ?_, by omega⟩
  obtain ⟨p', heq, hl', hu', _, _, _, _, _, _, _, _, _, _⟩ :=
    add_cell_ok_general Page.empty (List.replicate 4077 3)
      (by decide) (by decide) (by rw [hlen, e0, e1]; omega) (by decide)
  rw [heq]
  simp only [Except.map]
  rw [hl', hu', hlen, e0, e1]

/-- Claim C5 (amended): the header invariants
0 ≤ lower_offset ≤ upper_offset ≤ PAGE_SIZE - HEADER_SIZE, lower_offset a
multiple of 4, and cells_count = lower_offset / 4 hold after empty() and
after any sequence of add_cell calls in which every appended cell leaves
room for its payload plus its 4 pointer bytes
(length + 4 ≤ upper_offset - lower_offset at the time of its append). -/
theorem c5_invariants_amended (ds : List (List Nat))
    (h : Page.empty.fitsAll ds = true) :
    ∃ p, Page.empty.add_cells ds = .ok p ∧
      p.lower_offset ≤ p.upper_offset ∧
      p.upper_offset ≤ PAGE_SIZE - HEADER_SIZE ∧
      p.lower_offset % 4 = 0 ∧
      p.cells_count = p.lower_offset / 4 := by
  obtain ⟨p, heq, hinv⟩ := add_cells_cellsIn ds Page.empty [] cellsIn_empty h
  obtain ⟨hL, hlu, hub, _⟩ := hinv
  exact ⟨p, heq, hlu, hub, by omega, rfl⟩

/-- Witness for c5_invariants_amended on a two-cell sequence. -/
theorem c5_invariants_amended_witness :
    Page.empty.fitsAll [[1, 2], [3]] = true ∧
    (∃ p, Page.empty.add_cells [[1, 2], [3]] = .ok p ∧
      p.lower_offset ≤ p.upper_offset ∧
      p.upper_offset ≤ PAGE_SIZE - HEADER_SIZE ∧
      p.lower_offset % 4 = 0 ∧
      p.cells_count = p.lower_offset / 4) :=
  ⟨by decide, c5_invariants_amended [[1, 2], [3]] (by decide)⟩

/-- Claim C6 counterexample: appending 4076 bytes to the empty page is
accepted (4076 ≤ free space 4078) and succeeds, but afterwards the
free-space quantity the code computes is 65534: it neither equals
free - (len + 4) nor shrank - the u16 subtraction underflowed, so free
space (as computed) regrew. -/
theorem c6_free_shrink_counterexample :
    Page.empty.freeSpace = 4078 ∧
    (List.replicate 4076 2).length ≤ Page.empty.freeSpace ∧
    (Page.empty.add_cell (List.replicate 4076 2)).map Page.freeSpace =
      .ok 65534 ∧
    (65534 : Nat) ≠ Page.empty.freeSpace - ((List.replicate 4076 2).length + 4) ∧
    ¬ (65534 < Page.empty.freeSpace) := by
  have hlen : (List.replicate 4076 2).length = 4076 := List.length_replicate 4076 2
  have e0 : Page.empty.lower_offset = 0 := by decide
  have e1 : Page.empty.upper_offset = 4078 := by decide
  refine ⟨by decide, by rw [hlen]; decide, ?_, by rw [hlen]; decide, by decide⟩
  obtain ⟨p', heq, hl', hu', _, _, _, _, _, _, _, _, _, _⟩ :=
    add_cell_ok_general Page.empty (List.replicate 4076 2)
      (by decide) (by decide) (by rw [hlen, e0, e1]; omega) (by decide)
  rw [heq]
  simp only [Except.map]
  have hfs : p'.freeSpace = 65534 := by
    unfold Page.freeSpace sub16
    rw [hl', hu', hlen, e0, e1]
  rw [hfs]

/-- Claim C6 (amended): for every page with a consistent header, and every
data that leaves room for its payload plus its 4 pointer bytes
(length + 4 ≤ free space), add_cell succeeds and the free space afterwards
equals the free space before minus (length + 4); in particular it strictly
decreases. -/
theorem c6_free_shrink_amended (p : Page) (d : List Nat)
    (h1 : p.lower_offset ≤ p.upper_offset)
    (h2 : p.upper_offset ≤ PAGE_SIZE - HEADER_SIZE)
    (hfit : d.length + 4 ≤ p.freeSpace) :
    ∃ p', p.add_cell d = .ok p' ∧
      p'.freeSpace = p.freeSpace - (d.length + 4) ∧
      p'.freeSpace < p.freeSpace := by
  have hfs := freeSpace_eq_sub p h1
  rw [hfs] at hfit
  have hB := BODY_SIZE_eq
  have hP := PAGE_SIZE_eq
  have hH := HEADER_SIZE_eq
  obtain ⟨p', heq, hl', hu', _, _, _, _, _, _, _, _, _, _⟩ :=
    add_cell_ok_general p d h1 h2 (by omega) (by omega)
  have hlu' : p'.lower_offset ≤ p'.upper_offset := by omega
  have hfs' := freeSpace_eq_sub p' hlu'
  refine ⟨p', heq, ?_, ?_⟩
  · rw [hfs', hfs, hl', hu']
    omega
  · rw [hfs', hfs, hl', hu']
    omega

/-- Witness for c6_free_shrink_amended: the empty page with a 3-byte cell. -/
theorem c6_free_shrink_amended_witness :
    Page.empty.lower_offset ≤ Page.empty.upper_offset ∧
    Page.empty.upper_offset ≤ PAGE_SIZE - HEADER_SIZE ∧
    ([7, 7, 7] : List Nat).length + 4 ≤ Page.empty.freeSpace ∧
    (∃ p', Page.empty.add_cell [7, 7, 7] = .ok p' ∧
      p'.freeSpace = Page.empty.freeSpace - (([7, 7, 7] : List Nat).length + 4) ∧
      p'.freeSpace < Page.empty.freeSpace) :=
  ⟨by decide, by decide, by decide,
    c6_free_shrink_amended Page.empty [7, 7, 7] (by decide) (by decide) (by decide)⟩

/-- Claim C1 counterexample: from the empty page append d0 (4072 bytes of
value 1, and 4072 ≤ free space 4078) and then d1 = [9, 9] (2 bytes, and
2 ≤ free space 2); both appends succeed, yet read_nth_cell 1 returns
[4, 0] - the first two bytes of the pointer entry that the second append
wrote over its own payload - rather than d1 = [9, 9]. -/
theorem c1_roundtrip_counterexample :
    (List.replicate 4072 1).length ≤ Page.empty.freeSpace ∧
    (Page.empty.add_cell (List.replicate 4072 1)).map Page.freeSpace = .ok 2 ∧
    (((Page.empty.add_cell (List.replicate 4072 1)).bind
        (fun p1 => p1.add_cell [9, 9])).bind
        (fun p2 => p2.read_nth_cell 1)) = .ok [4, 0] ∧
    ([4, 0] : List Nat) ≠ [9, 9] := by
  have hlen : (List.replicate 4072 1).length = 4072 := List.length_replicate 4072 1
  have hlen2 : ([9, 9] : List Nat).length = 2 := rfl
  have e0 : Page.empty.lower_offset = 0 := by decide
  have e1 : Page.empty.upper_offset = 4078 := by decide
  have hB := BODY_SIZE_eq
  obtain ⟨p1, heq1, hl1, hu1, _, _, _, _, _, _, _, _, _, _⟩ :=
    add_cell_ok_general Page.empty (List.replicate 4072 1)
      (by decide) (by decide) (by rw [hlen, e0, e1]; omega) (by decide)
  have el1 : p1.lower_offset = 4 := by rw [hl1, e0]
  have eu1 : p1.upper_offset = 6 := by rw [hu1, e1, hlen]
  obtain ⟨p2, heq2, hl2, hu2, _, _, _, hpa2, hpl2, _, hb0, hb1, _, _⟩ :=
    add_cell_ok_general p1 [9, 9]
      (by omega) (by omega) (by omega) (by omega)
  have el2 : p2.lower_offset = 8 := by rw [hl2, el1]
  rw [el1, eu1, hlen2] at hpa2
  rw [el1, hlen2] at hpl2
  rw [el1, eu1, hlen2] at hb0
  rw [el1, eu1, hlen2] at hb1
  have ea : readU16at p2.data (HEADER_SIZE + 4) = 4 := by rw [hpa2]
  have epl : readU16at p2.data (HEADER_SIZE + 4 + 2) = 2 := by rw [hpl2]
  have eb0 : p2.body 4 = 4 := by rw [hb0]
  have eb1 : p2.body (4 + 1) = 0 := by rw [hb1]
  refine ⟨by rw [hlen]; decide, ?_, ?_, by decide⟩
  · rw [heq1]
    simp only [Except.map]
    have hfs1 : p1.freeSpace = 2 := by
      unfold Page.freeSpace sub16
      rw [eu1, el1]
    rw [hfs1]
  · rw [heq1]
    simp only [Except.bind]
    rw [heq2]
    simp only [Except.bind]
    have hmod : 1 * 4 % 65536 = 4 := by norm_num
    have hg : ¬ (4 > p2.lower_offset) := by omega
    have hb4 : (4 : Nat) + 4 ≤ BODY_SIZE := by omega
    simp only [Page.read_nth_cell, Page.read_pointer, Page.read_cell, hmod,
      if_neg hg, if_pos hb4, ea, epl]
    rw [if_pos (by omega)]
    have hr2 : List.range 2 = [0, 1] := rfl
    simp only [hr2, List.map_cons, List.map_nil]
    have ed0 : p2.data (HEADER_SIZE + 4 + 0) = 4 := by
      rw [show HEADER_SIZE + 4 + 0 = HEADER_SIZE + 4 by omega]
      exact eb0
    have ed1 : p2.data (HEADER_SIZE + 4 + 1) = 0 := by
      rw [show HEADER_SIZE + 4 + 1 = HEADER_SIZE + (4 + 1) by omega]
      exact eb1
    rw [ed0, ed1]

/-- Claim C1 (amended): starting from the empty page, for every sequence of
byte strings in which each cell, at the time of its append, fits together
with its 4 pointer bytes inside the free space
(length + 4 ≤ upper_offset - lower_offset), every append succeeds and
afterwards read_nth_cell i returns exactly the i-th appended byte string,
unchanged, for every i. -/
theorem c1_roundtrip_amended (ds : List (List Nat))
    (h : Page.empty.fitsAll ds = true) :
    ∃ p, Page.empty.add_cells ds = .ok p ∧
      ∀ i, i < ds.length → p.read_nth_cell i = .ok (ds.getD i []) := by
  obtain ⟨p, heq, hinv⟩ := add_cells_cellsIn ds Page.empty [] cellsIn_empty h
  rw [List.nil_append] at hinv
  exact ⟨p, heq, fun i hi => read_nth_cell_of_cellsIn hinv hi⟩

/-- Witness for c1_roundtrip_amended on the sequence [[1, 2, 3], [4, 5]]. -/
theorem c1_roundtrip_amended_witness :
    Page.empty.fitsAll [[1, 2, 3], [4, 5]] = true ∧
    (∃ p, Page.empty.add_cells [[1, 2, 3], [4, 5]] = .ok p ∧
      ∀ i, i < ([[1, 2, 3], [4, 5]] : List (List Nat)).length →
        p.read_nth_cell i = .ok (([[1, 2, 3], [4, 5]] : List (List Nat)).getD i [])) :=
  ⟨by decide, c1_roundtrip_amended [[1, 2, 3], [4, 5]] (by decide)⟩

/-- Claim C10 (confirmed): for every page satisfying the header invariants
and every data with length + 4 at most the free space, a successful
add_cell leaves the magic bytes, the overflow_page field, the flags field,
every existing pointer-table entry (all body bytes below lower_offset), and
every previously written payload byte (all body bytes at or above
upper_offset) unchanged. -/
theorem c10_add_cell_frame (p : Page) (d : List Nat)
    (h1 : p.lower_offset ≤ p.upper_offset)
    (h2 : p.upper_offset ≤ PAGE_SIZE - HEADER_SIZE)
    (h3 : p.lower_offset % 4 = 0)
    (hfit : d.length + 4 ≤ p.freeSpace) :
    ∃ p', p.add_cell d = .ok p' ∧
      p'.magic = p.magic ∧
      p'.overflow_page = p.overflow_page ∧
      p'.flags = p.flags ∧
      (∀ j, j < p.lower_offset → p'.body j = p.body j) ∧
      (∀ j, p.upper_offset ≤ j → p'.body j = p.body j) ∧
      (∀ j, p.lower_offset + 4 ≤ j → j < p.upper_offset - d.length →
        p'.body j = p.body j) := by
  rw [freeSpace_eq_sub p h1] at hfit
  have hB := BODY_SIZE_eq
  have hP := PAGE_SIZE_eq
  have hH := HEADER_SIZE_eq
  obtain ⟨p', heq, hl', hu', hmagic, hhdr, hframe, _, _, _, _, _, _, _⟩ :=
    add_cell_ok_general p d h1 h2 (by omega) (by omega)
  refine ⟨p', heq, ?_, ?_, ?_, ?_, ?_, ?_⟩
  · simp only [Page.magic]
    rw [hmagic 0 (by omega), hmagic 1 (by omega), hmagic 2 (by omega),
        hmagic 3 (by omega)]
  · simp only [Page.overflow_page]
    congr 1
    exact readU64at_congr
      (hhdr 8 (by omega) (by omega)) (hhdr (8 + 1) (by omega) (by omega))
      (hhdr (8 + 2) (by omega) (by omega)) (hhdr (8 + 3) (by omega) (by omega))
      (hhdr (8 + 4) (by omega) (by omega)) (hhdr (8 + 5) (by omega) (by omega))
      (hhdr (8 + 6) (by omega) (by omega)) (hhdr (8 + 7) (by omega) (by omega))
  · simp only [Page.flags]
    exact readU16at_congr (hhdr 16 (by omega) (by omega))
      (hhdr (16 + 1) (by omega) (by omega))
  · intro j hj
    exact hframe j (by omega) (by omega)
  · intro j hj
    exact hframe j (by omega) (by omega)
  · intro j hj1 hj2
    exact hframe j (by omega) (by omega)

/-- Witness for c10_add_cell_frame: the empty page with a 3-byte cell. -/
theorem c10_add_cell_frame_witness :
    Page.empty.lower_offset ≤ Page.empty.upper_offset ∧
    Page.empty.upper_offset ≤ PAGE_SIZE - HEADER_SIZE ∧
    Page.empty.lower_offset % 4 = 0 ∧
    ([1, 2, 3] : List Nat).length + 4 ≤ Page.empty.freeSpace ∧
    (∃ p', Page.empty.add_cell [1, 2, 3] = .ok p' ∧
      p'.magic = Page.empty.magic ∧
      p'.overflow_page = Page.empty.overflow_page ∧
      p'.flags = Page.empty.flags ∧
      (∀ j, j < Page.empty.lower_offset → p'.body j = Page.empty.body j) ∧
      (∀ j, Page.empty.upper_offset ≤ j → p'.body j = Page.empty.body j) ∧
      (∀ j, Page.empty.lower_offset + 4 ≤ j →
        j < Page.empty.upper_offset - ([1, 2, 3] : List Nat).length →
        p'.body j = Page.empty.body j)) :=
  ⟨by decide, by decide, by decide, by decide,
    c10_add_cell_frame Page.empty [1, 2, 3]
      (by decide) (by decide) (by decide) (by decide)⟩

end SlottedPages
